import Mathlib

/-!
Verification of the streamer service (main.go): a rendezvous-based file
relay.  We give a shallow embedding of the core logic: token generation
(base64 URL encoding of 36 random bytes), the POST (upload) handler as a
trace-producing function over a registry, the GET (download) handler, an
interleaving semantics for concurrent GET requests, and the
responseLogWriter connection wrapper.  Machine integers are modelled as
Nat/Int; bytes are Nat values below 256.
-/

namespace Streamer

/-! ## Identifier generation (main.go lines 93-107)

The handler draws 36 bytes from a time-seeded source, computes
encodedLength = base64.StdEncoding.EncodedLen(36) = 48, encodes the bytes
with base64.URLEncoding into a pooled buffer, and takes the first
encodedLength bytes of the buffer as the file ID. -/

/-- The URL-safe base64 alphabet used by base64.URLEncoding
("A-Za-z0-9-_"). -/
def b64Chars : List Char :=
  ['A','B','C','D','E','F','G','H','I','J','K','L','M','N','O','P','Q','R',
   'S','T','U','V','W','X','Y','Z','a','b','c','d','e','f','g','h','i','j',
   'k','l','m','n','o','p','q','r','s','t','u','v','w','x','y','z','0','1',
   '2','3','4','5','6','7','8','9','-','_']

/-- Character for a 6-bit group.  The default is never reached for
sextets below 64. -/
def sextetChar (n : Nat) : Char := b64Chars.getD n '='

/-- Encoding of one full 3-byte group into 4 characters. -/
def encode3 (b0 b1 b2 : Nat) : List Char :=
  [sextetChar (b0 / 4), sextetChar (b0 % 4 * 16 + b1 / 16),
   sextetChar (b1 % 16 * 4 + b2 / 64), sextetChar (b2 % 64)]

/-- base64.URLEncoding.Encode: full 3-byte groups, then a padded tail
(with padding characters for a 1- or 2-byte remainder). -/
def base64urlEncode : List Nat → List Char
  | [] => []
  | [b0] => [sextetChar (b0 / 4), sextetChar (b0 % 4 * 16), '=', '=']
  | [b0, b1] =>
      [sextetChar (b0 / 4), sextetChar (b0 % 4 * 16 + b1 / 16),
       sextetChar (b1 % 16 * 4), '=']
  | b0 :: b1 :: b2 :: rest => encode3 b0 b1 b2 ++ base64urlEncode rest

/-- base64 EncodedLen for padded encodings: (n+2)/3*4.  The handler uses
StdEncoding.EncodedLen, which agrees with URLEncoding.EncodedLen. -/
def encodedLen (n : Nat) : Nat := (n + 2) / 3 * 4

/-- The generated file ID, as a character list: the first
encodedLen(n) characters of the URL-safe encoding of the n drawn
bytes (main.go line 107). -/
def tokenOf (bs : List Nat) : List Char :=
  (base64urlEncode bs).take (encodedLen bs.length)

/-- The file ID as a string. -/
def fileIDOf (bs : List Nat) : String := String.mk (tokenOf bs)

lemma sextetChar_safe :
    ∀ n, n < 64 → sextetChar n ≠ '+' ∧ sextetChar n ≠ '/' ∧ sextetChar n ≠ '=' := by
  decide

lemma encode3_safe (b0 b1 b2 : Nat) (h0 : b0 < 256) (h1 : b1 < 256) (h2 : b2 < 256) :
    ∀ c ∈ encode3 b0 b1 b2, c ≠ '+' ∧ c ≠ '/' ∧ c ≠ '=' := by
  intro c hc
  simp only [encode3, List.mem_cons, List.not_mem_nil, or_false] at hc
  rcases hc with h | h | h | h <;> subst h <;> exact sextetChar_safe _ (by omega)

/-- Over byte lists whose length is a multiple of 3, the encoding never
produces a plus sign, a slash, or a padding character. -/
lemma base64urlEncode_safe :
    ∀ bs : List Nat, (∀ b ∈ bs, b < 256) → bs.length % 3 = 0 →
      ∀ c ∈ base64urlEncode bs, c ≠ '+' ∧ c ≠ '/' ∧ c ≠ '='
  | [] => by intro _ _ c hc; simp [base64urlEncode] at hc
  | [b0] => by intro _ hmod; simp at hmod
  | [b0, b1] => by intro _ hmod; simp at hmod
  | b0 :: b1 :: b2 :: rest => by
      intro hlt hmod c hc
      have hrest : rest.length % 3 = 0 := by
        simp only [List.length_cons] at hmod; omega
      have hb0 : b0 < 256 := hlt b0 (by simp)
      have hb1 : b1 < 256 := hlt b1 (by simp)
      have hb2 : b2 < 256 := hlt b2 (by simp)
      simp only [base64urlEncode, List.mem_append] at hc
      rcases hc with h | h
      · exact encode3_safe b0 b1 b2 hb0 hb1 hb2 c h
      · exact base64urlEncode_safe rest (fun b hb => hlt b (by simp [hb])) hrest c h

/-- Length of the encoding of a byte list whose length is a multiple
of 3. -/
lemma base64urlEncode_len :
    ∀ bs : List Nat, bs.length % 3 = 0 →
      (base64urlEncode bs).length = bs.length / 3 * 4
  | [] => by intro _; simp [base64urlEncode]
  | [b0] => by intro hmod; simp at hmod
  | [b0, b1] => by intro hmod; simp at hmod
  | b0 :: b1 :: b2 :: rest => by
      intro hmod
      have hrest : rest.length % 3 = 0 := by
        simp only [List.length_cons] at hmod; omega
      have ih := base64urlEncode_len rest hrest
      simp only [base64urlEncode, List.length_append, List.length_cons, ih, encode3,
        List.length_cons, List.length_nil]
      omega

lemma tokenOf_eq (bs : List Nat) (h : bs.length % 3 = 0) :
    tokenOf bs = base64urlEncode bs := by
  have hlen := base64urlEncode_len bs h
  have : encodedLen bs.length = bs.length / 3 * 4 := by
    unfold encodedLen; omega
  simp [tokenOf, this, ← hlen]

/-! ## The transfer registry and the two handler flows

The registry (the clients map of main.go line 68) maps file IDs to
transfer records.  We model it as an association list with the first
binding authoritative; delete removes the key. -/

/-- The client record of main.go lines 21-27.  The two channels are
modelled by flags recording whether they were created; the receiver
pointer by a flag recording whether a sink was stored. -/
structure DTransfer where
  fileName : String
  receiving : Bool
  hasReceiver : Bool
  hasCompletion : Bool
  deriving Repr, DecidableEq

/-- A fresh record as built at main.go lines 122-126: only
clientConnected is created and fileName set; receiving, receiver and
downloadCompleted are zero-valued. -/
def newTransfer (fileName : String) : DTransfer :=
  { fileName := fileName, receiving := false,
    hasReceiver := false, hasCompletion := false }

abbrev Registry := List (String × DTransfer)

def lookupReg (tok : String) : Registry → Option DTransfer
  | [] => none
  | (k, t) :: rest => if k = tok then some t else lookupReg tok rest

/-- Map delete: remove the binding for the key. -/
def eraseReg (tok : String) (reg : Registry) : Registry :=
  reg.filter (fun p => !(p.1 == tok))

def updateReg (tok : String) (t : DTransfer) : Registry → Registry
  | [] => []
  | (k, u) :: rest =>
      if k = tok then (k, t) :: rest else (k, u) :: updateReg tok t rest

/-- Observable events of the upload flow, in program order. -/
inductive Event where
  /-- WriteHeader on the upload response with a status code. -/
  | setStatus (code : Nat)
  /-- A write of a string to the upload response. -/
  | respWrite (s : String)
  /-- Header().Add on the downloader sink. -/
  | sinkHeader (key value : String)
  /-- One byte written to the downloader sink by the copy loop. -/
  | sinkWrite (b : Nat)
  /-- Send on the downloadCompleted channel. -/
  | fireCompletion
  /-- delete(clients, fileID). -/
  | removeRegistry (tok : String)
  deriving Repr, DecidableEq

/-- Which of the three select cases of main.go lines 155-169 wins. -/
inductive SelectEvent where
  | paired
  | disconnected
  | timedOut
  deriving Repr, DecidableEq

/-- Outcome of the io.CopyBuffer call: success, or an I/O error with
message msg after k bytes were written. -/
inductive CopyOutcome where
  | ok
  | err (k : Nat) (msg : String)
  deriving Repr, DecidableEq

/-- Environment of one POST request after authentication: the file name
from the URL, the declared Content-Length (negative when unknown), the
bytes readable from the hijacked connection, the result of the random
read (none models a read error whose text is rngErrMsg), the base URL,
and the nondeterministic outcomes of the select and of the copy. -/
structure PostEnv where
  fileName : String
  contentLength : Int
  bodyBytes : List Nat
  rngBytes : Option (List Nat)
  rngErrMsg : String
  baseUrl : String
  selectWinner : SelectEvent
  copyOutcome : CopyOutcome
  deriving Repr, DecidableEq

/-- io.LimitReader(bufrw, r.ContentLength) read to EOF: for a
non-positive limit it yields nothing, otherwise the first
ContentLength bytes. -/
def limitBytes (cl : Int) (input : List Nat) : List Nat :=
  input.take cl.toNat

/-- With nothing to read the copy performs no I/O, so it cannot fail:
io.CopyBuffer returns a nil error without touching either end. -/
def effCopy (env : PostEnv) : CopyOutcome :=
  if (limitBytes env.contentLength env.bodyBytes).isEmpty then .ok
  else env.copyOutcome

/-- The phase-1 message of main.go line 151. -/
def phase1Msg (env : PostEnv) (tok : String) : String :=
  "HTTP/1.1 200 OK\r\n\r\nTo download the file, curl -o " ++ env.fileName ++
    " " ++ env.baseUrl ++ "/streamer/" ++ tok ++ "\n"

/-- The phase-2 message of the winning select case. -/
def phase2Msg : SelectEvent → String
  | .paired => "Client connected.\n"
  | .disconnected => "Request disconnected.\n"
  | .timedOut => "Timed out. No client connected in 120 seconds.\n"

/-- The content-disposition value attached at main.go line 176. -/
def dispositionValue (fileName : String) : String :=
  "attachment; filename=\"" ++ fileName ++ "\""

/-- The success message of main.go line 184. -/
def successMsg (fileName : String) : String :=
  fileName ++ " was transferred successfully.\n"

/-- The POST handler after authentication (main.go lines 92-185),
returning the event trace and the final registry.  Deferred calls run
last-in first-out, so the completion send (deferred at line 171) runs
before the registry delete (deferred at line 129). -/
def postFlow (env : PostEnv) (reg : Registry) : List Event × Registry :=
  match env.rngBytes with
  | none =>
      ([.setStatus 400, .respWrite env.rngErrMsg], reg)
  | some bs =>
      let fileID := fileIDOf bs
      match lookupReg fileID reg with
      | some _ =>
          ([.setStatus 400,
            .respWrite "File already exists. Choose a different name."], reg)
      | none =>
          let reg1 := (fileID, newTransfer env.fileName) :: reg
          let p1 := Event.respWrite (phase1Msg env fileID)
          match env.selectWinner with
          | .disconnected =>
              ([p1, .respWrite (phase2Msg .disconnected),
                .removeRegistry fileID], eraseReg fileID reg1)
          | .timedOut =>
              ([p1, .respWrite (phase2Msg .timedOut),
                .removeRegistry fileID], eraseReg fileID reg1)
          | .paired =>
              let limited := limitBytes env.contentLength env.bodyBytes
              let hdr := Event.sinkHeader "content-disposition"
                (dispositionValue env.fileName)
              match effCopy env with
              | .ok =>
                  (p1 :: .respWrite (phase2Msg .paired) :: hdr ::
                    (limited.map .sinkWrite ++
                      [.respWrite (successMsg env.fileName),
                       .fireCompletion, .removeRegistry fileID]),
                   eraseReg fileID reg1)
              | .err k msg =>
                  (p1 :: .respWrite (phase2Msg .paired) :: hdr ::
                    ((limited.take k).map .sinkWrite ++
                      [.respWrite msg,
                       .fireCompletion, .removeRegistry fileID]),
                   eraseReg fileID reg1)

/-! ## Trace observers -/

/-- The bytes written to the downloader sink, in order. -/
def sinkBytesOf : List Event → List Nat
  | [] => []
  | .sinkWrite b :: es => b :: sinkBytesOf es
  | _ :: es => sinkBytesOf es

/-- The strings written to the upload response, in order. -/
def respWritesOf : List Event → List String
  | [] => []
  | .respWrite s :: es => s :: respWritesOf es
  | _ :: es => respWritesOf es

/-- True when no sink byte is written before a sink header is attached. -/
def hdrBeforeData : List Event → Bool
  | [] => true
  | .sinkHeader _ _ :: _ => true
  | .sinkWrite _ :: _ => false
  | _ :: es => hdrBeforeData es

def isFire : Event → Bool
  | .fireCompletion => true
  | _ => false

def isRemove : Event → Bool
  | .removeRegistry _ => true
  | _ => false

/-- True when some fireCompletion occurs after some removeRegistry. -/
def fireAfterRemove : List Event → Bool
  | [] => false
  | .removeRegistry _ :: es => es.any isFire || fireAfterRemove es
  | _ :: es => fireAfterRemove es

/-! ## The GET handler (main.go lines 186-210), one request at a time -/

inductive GetOutcome where
  /-- http.NotFound. -/
  | notFound
  /-- http.Error with a message and a status code. -/
  | rejected (msg : String) (status : Nat)
  /-- The request claimed the transfer: sink stored, receiving set,
  completion channel created, pairing signal fired. -/
  | claimedOK
  deriving Repr, DecidableEq

/-- One GET request run to the point where it either finishes with an
error or has claimed the transfer and fired the pairing signal.  tok is
the path segment after the route (line 190: the file ID). -/
def getFlow (tok : String) (reg : Registry) : GetOutcome × Registry :=
  match lookupReg tok reg with
  | none => (.notFound, reg)
  | some t =>
      if t.receiving then
        (.rejected "File already being received by another client.\n" 400, reg)
      else
        (.claimedOK,
         updateReg tok
           { t with receiving := true, hasReceiver := true,
                    hasCompletion := true } reg)

/-! ## Interleaving semantics of two concurrent GET requests

The code reads client.receiving at line 193 with no lock held (the
registry RLock was released at line 191), and only then takes the write
lock for lines 194-198.  The atomic units below follow the lock
boundaries of the code: the map lookup under RLock, the unguarded read
of receiving, and the locked block storing the sink and setting
receiving.  Program counters: 0 before the lookup, 1 before the
receiving check, 2 before the locked claim block, 3 claimed (the flow
then fires the pairing signal), 4 rejected. -/

structure RaceWorld where
  /-- The shared receiving flag of the single registered transfer. -/
  receiving : Bool
  /-- Who stored its response writer in the shared receiver field last:
  0 none yet, 1 flow A, 2 flow B. -/
  sinkOwner : Nat
  pcA : Nat
  pcB : Nat
  deriving Repr, DecidableEq

/-- Both downloaders start before their lookup, transfer unclaimed. -/
def raceInit : RaceWorld :=
  { receiving := false, sinkOwner := 0, pcA := 0, pcB := 0 }

/-- One atomic step of one flow (false = A, true = B). -/
def raceStep (w : RaceWorld) (who : Bool) : RaceWorld :=
  let pc := if who then w.pcB else w.pcA
  let setPc := fun (w : RaceWorld) (n : Nat) =>
    if who then { w with pcB := n } else { w with pcA := n }
  match pc with
  | 0 => setPc w 1
  | 1 => if w.receiving then setPc w 4 else setPc w 2
  | 2 => setPc { w with receiving := true,
                        sinkOwner := if who then 2 else 1 } 3
  | _ => w

def raceRun (sched : List Bool) (w : RaceWorld) : RaceWorld :=
  sched.foldl raceStep w

/-! ## The responseLogWriter wrapper (main.go lines 240-296) -/

/-- gin-style deferred-header writer over the hijacked connection.
status and size are Go ints, zero-valued unless set by the struct
literal. -/
structure ResponseLogWriter where
  status : Int
  size : Int
  deriving Repr, DecidableEq

def noWritten : Int := -1

/-- The construction at main.go line 150: only body and header are set
in the struct literal, so status and size are zero. -/
def mkResponseLogWriter : ResponseLogWriter := { status := 0, size := 0 }

def written (w : ResponseLogWriter) : Bool := w.size != noWritten

/-- WriteHeaderNow: if nothing is written yet, reset size and emit the
status line through the wrapped ResponseWriter. -/
def writeHeaderNow (w : ResponseLogWriter) : ResponseLogWriter :=
  if !(written w) then { w with size := 0 } else w

/-- Write: WriteHeaderNow, then write data and grow size by the byte
count written. -/
def rlwWrite (w : ResponseLogWriter) (data : List Nat) : ResponseLogWriter :=
  let w1 := writeHeaderNow w
  { w1 with size := w1.size + data.length }

def rlwSize (w : ResponseLogWriter) : Int := w.size

/-! ## Helper lemmas about the trace observers -/

lemma sinkBytesOf_sinkWrites (l : List Nat) (es : List Event) :
    sinkBytesOf (l.map Event.sinkWrite ++ es) = l ++ sinkBytesOf es := by
  induction l with
  | nil => simp
  | cons b bs ih => simpa [sinkBytesOf] using ih

lemma respWritesOf_sinkWrites (l : List Nat) (es : List Event) :
    respWritesOf (l.map Event.sinkWrite ++ es) = respWritesOf es := by
  induction l with
  | nil => simp
  | cons b bs ih => simpa [respWritesOf] using ih

lemma countP_sinkWrites (p : Event → Bool)
    (hp : ∀ b, p (Event.sinkWrite b) = false) (l : List Nat) (es : List Event) :
    ((l.map Event.sinkWrite) ++ es).countP p = es.countP p := by
  induction l with
  | nil => simp
  | cons b bs ih => simp [List.countP_cons, hp, ih]

lemma fireAfterRemove_sinkWrites (l : List Nat) (es : List Event) :
    fireAfterRemove (l.map Event.sinkWrite ++ es) = fireAfterRemove es := by
  induction l with
  | nil => simp
  | cons b bs ih => simpa [fireAfterRemove] using ih

lemma lookupReg_none_key_ne (tok : String) :
    ∀ reg : Registry, lookupReg tok reg = none → ∀ p ∈ reg, p.1 ≠ tok
  | [], _, p, hp => by simp at hp
  | (k, u) :: rest, h, p, hp => by
      by_cases hk : k = tok
      · simp [lookupReg, hk] at h
      · rcases List.mem_cons.mp hp with h1 | h1
        · subst h1; exact hk
        · have hrest : lookupReg tok rest = none := by
            simpa [lookupReg, hk] using h
          exact lookupReg_none_key_ne tok rest hrest p h1

/-- Deleting a freshly inserted key restores the registry when the key
was absent. -/
lemma eraseReg_cons_self (tok : String) (t : DTransfer) (reg : Registry)
    (h : lookupReg tok reg = none) :
    eraseReg tok ((tok, t) :: reg) = reg := by
  have hne := lookupReg_none_key_ne tok reg h
  simp only [eraseReg, List.filter_cons]
  have : (!((tok, t).1 == tok)) = false := by simp
  rw [this]
  simp only [Bool.false_eq_true, if_false]
  exact List.filter_eq_self.mpr fun p hp => by
    simpa using hne p hp

/-! ## Concrete inputs for witnesses -/

/-- 36 zero bytes, a possible draw of the random source. -/
def zeroBytes : List Nat := List.replicate 36 0

/-- A paired, successful upload environment. -/
def envOk : PostEnv :=
  { fileName := "hello.txt", contentLength := 5,
    bodyBytes := [104, 101, 108, 108, 111, 99],
    rngBytes := some zeroBytes, rngErrMsg := "",
    baseUrl := "http://localhost:3000",
    selectWinner := .paired, copyOutcome := .ok }

/-- An upload environment whose random read fails. -/
def envRngErr : PostEnv :=
  { envOk with rngBytes := none, rngErrMsg := "read failed" }

/-- A transfer already claimed by a downloader. -/
def claimedT : DTransfer :=
  { fileName := "hello.txt", receiving := true,
    hasReceiver := true, hasCompletion := true }

/-! ## Claim theorems -/

/-- C8: when the freshly generated token collides with an existing
registry entry, the upload request is rejected with status 400 and the
message telling the caller to choose a different name, and the registry
(hence the colliding entry) is unchanged: no Transfer is created
(main.go lines 109-118). -/
theorem c8_token_collision (env : PostEnv) (reg : Registry)
    (bs : List Nat) (t : DTransfer)
    (h1 : env.rngBytes = some bs)
    (h2 : lookupReg (fileIDOf bs) reg = some t) :
    postFlow env reg =
      ([.setStatus 400,
        .respWrite "File already exists. Choose a different name."], reg) := by
  simp [postFlow, h1, h2]

theorem c8_token_collision_witness :
    postFlow envOk [(fileIDOf zeroBytes, claimedT)] =
      ([.setStatus 400,
        .respWrite "File already exists. Choose a different name."],
       [(fileIDOf zeroBytes, claimedT)]) :=
  c8_token_collision envOk [(fileIDOf zeroBytes, claimedT)] zeroBytes claimedT
    rfl (by simp [lookupReg])

/-- C7: a download request whose token is absent from the registry gets
the not-found response; one whose token is present but already claimed
gets a client error with exactly the message of main.go line 201, with
the registry, and hence every field of the existing transfer, left
unchanged. -/
theorem c7_download_rejections (tok : String) (reg : Registry) :
    (lookupReg tok reg = none → getFlow tok reg = (.notFound, reg)) ∧
    (∀ t, lookupReg tok reg = some t → t.receiving = true →
      getFlow tok reg =
        (.rejected "File already being received by another client.\n" 400,
         reg)) := by
  refine ⟨fun h => by simp [getFlow, h], fun t h hr => by simp [getFlow, h, hr]⟩

theorem c7_download_rejections_witness :
    getFlow "missing" [] = (.notFound, []) ∧
    getFlow "tok" [("tok", claimedT)] =
      (.rejected "File already being received by another client.\n" 400,
       [("tok", claimedT)]) :=
  ⟨(c7_download_rejections "missing" []).1 rfl,
   (c7_download_rejections "tok" [("tok", claimedT)]).2 claimedT
     (by simp [lookupReg]) rfl⟩

/-- C6: a generated token comes from exactly 36 drawn bytes and is the
URL-safe base64 encoding of them, 48 characters long and free of plus,
slash and equals characters, hence safe in a URL path segment; and when
the random read fails the upload answers status 400 with the error text
and creates no Transfer (main.go lines 93-107, 97-101). -/
theorem c6_token_generation :
    (∀ bs : List Nat, bs.length = 36 → (∀ b ∈ bs, b < 256) →
      (tokenOf bs).length = 48 ∧
        ∀ c ∈ tokenOf bs, c ≠ '+' ∧ c ≠ '/' ∧ c ≠ '=') ∧
    (∀ (env : PostEnv) (reg : Registry), env.rngBytes = none →
      postFlow env reg = ([.setStatus 400, .respWrite env.rngErrMsg], reg)) := by
  constructor
  · intro bs hlen hlt
    have hmod : bs.length % 3 = 0 := by omega
    have heq := tokenOf_eq bs hmod
    have hl := base64urlEncode_len bs hmod
    refine ⟨by rw [heq, hl, hlen], ?_⟩
    rw [heq]
    exact base64urlEncode_safe bs hlt hmod
  · intro env reg h
    simp [postFlow, h]

theorem c6_token_generation_witness :
    ((tokenOf zeroBytes).length = 48 ∧
      ∀ c ∈ tokenOf zeroBytes, c ≠ '+' ∧ c ≠ '/' ∧ c ≠ '=') ∧
    postFlow envRngErr [] =
      ([.setStatus 400, .respWrite "read failed"], []) :=
  ⟨c6_token_generation.1 zeroBytes (by decide) (by decide),
   c6_token_generation.2 envRngErr [] rfl⟩

/-- C1: for a paired transfer whose copy succeeds, the bytes written to
the downloader sink are exactly the request body truncated at the
declared content length (never past it), and the content-disposition
attachment header carrying fileName is attached to the sink before the
first body byte (main.go lines 176-177). -/
theorem c1_byte_fidelity (env : PostEnv) (reg : Registry) (bs : List Nat)
    (h1 : env.rngBytes = some bs)
    (h2 : lookupReg (fileIDOf bs) reg = none)
    (h3 : env.selectWinner = .paired)
    (h4 : env.copyOutcome = .ok)
    (_h5 : 0 ≤ env.contentLength) :
    sinkBytesOf (postFlow env reg).1 =
        env.bodyBytes.take env.contentLength.toNat ∧
      hdrBeforeData (postFlow env reg).1 = true ∧
      Event.sinkHeader "content-disposition" (dispositionValue env.fileName)
        ∈ (postFlow env reg).1 := by
  have heff : effCopy env = .ok := by
    simp [effCopy, h4]
  simp only [postFlow, h1, h2, h3, heff]
  refine ⟨?_, ?_, ?_⟩
  · simp [sinkBytesOf, sinkBytesOf_sinkWrites, limitBytes, -List.map_take]
  · simp [hdrBeforeData]
  · simp

theorem c1_byte_fidelity_witness :
    sinkBytesOf (postFlow envOk []).1 = [104, 101, 108, 108, 111] ∧
      hdrBeforeData (postFlow envOk []).1 = true ∧
      Event.sinkHeader "content-disposition" (dispositionValue "hello.txt")
        ∈ (postFlow envOk []).1 := by
  have h := c1_byte_fidelity envOk [] zeroBytes rfl rfl rfl rfl (by decide)
  simpa [envOk] using h

/-- C10: when the declared content length is unknown (negative, as for a
chunked body), io.LimitReader yields immediate end of input, so the copy
transfers zero bytes to the sink and the upload flow still writes the
success message (main.go lines 177-185). -/
theorem c10_unknown_length (env : PostEnv) (reg : Registry) (bs : List Nat)
    (h1 : env.rngBytes = some bs)
    (h2 : lookupReg (fileIDOf bs) reg = none)
    (h3 : env.selectWinner = .paired)
    (h5 : env.contentLength < 0) :
    sinkBytesOf (postFlow env reg).1 = [] ∧
      Event.respWrite (successMsg env.fileName) ∈ (postFlow env reg).1 := by
  have hlim : limitBytes env.contentLength env.bodyBytes = [] := by
    have : env.contentLength.toNat = 0 := by omega
    simp [limitBytes, this]
  have heff : effCopy env = .ok := by
    simp [effCopy, hlim]
  simp only [postFlow, h1, h2, h3, heff, hlim]
  exact ⟨by simp [sinkBytesOf], by simp⟩

theorem c10_unknown_length_witness :
    sinkBytesOf (postFlow { envOk with contentLength := -1 } []).1 = [] ∧
      Event.respWrite (successMsg "hello.txt")
        ∈ (postFlow { envOk with contentLength := -1 } []).1 := by
  have h := c10_unknown_length { envOk with contentLength := -1 } []
    zeroBytes rfl rfl rfl (by decide)
  simpa [envOk] using h

/-- C3: whatever terminal state the upload flow reaches after
registering, the trace holds exactly one registry removal, no completion
signal fires after the removal (the deferred send of line 171 runs
before the deferred delete of line 129), after pairing the completion
signal fires exactly once, and the final registry equals the initial
one: the entry is gone. -/
theorem c3_removal_once (env : PostEnv) (reg : Registry) (bs : List Nat)
    (h1 : env.rngBytes = some bs)
    (h2 : lookupReg (fileIDOf bs) reg = none) :
    ((postFlow env reg).1.countP isRemove) = 1 ∧
    fireAfterRemove (postFlow env reg).1 = false ∧
    (env.selectWinner = .paired → (postFlow env reg).1.countP isFire = 1) ∧
    (postFlow env reg).2 = reg := by
  have herase := eraseReg_cons_self (fileIDOf bs) (newTransfer env.fileName) reg h2
  have hfire : ∀ b, isFire (Event.sinkWrite b) = false := fun _ => rfl
  have hrem : ∀ b, isRemove (Event.sinkWrite b) = false := fun _ => rfl
  cases hw : env.selectWinner with
  | disconnected =>
      simp only [postFlow, h1, h2, hw]
      exact ⟨by simp [List.countP_cons, isRemove],
        by simp [fireAfterRemove, isFire],
        by simp [hw], herase⟩
  | timedOut =>
      simp only [postFlow, h1, h2, hw]
      exact ⟨by simp [List.countP_cons, isRemove],
        by simp [fireAfterRemove, isFire],
        by simp [hw], herase⟩
  | paired =>
      cases hc : effCopy env with
      | ok =>
          simp only [postFlow, h1, h2, hw, hc]
          refine ⟨?_, ?_, fun _ => ?_, herase⟩
          · rw [List.countP_cons, List.countP_cons, List.countP_cons,
              countP_sinkWrites isRemove hrem]
            simp [List.countP_cons, isRemove]
          · simp only [fireAfterRemove, fireAfterRemove_sinkWrites]
            simp [fireAfterRemove, isFire]
          · rw [List.countP_cons, List.countP_cons, List.countP_cons,
              countP_sinkWrites isFire hfire]
            simp [List.countP_cons, isFire]
      | err k msg =>
          simp only [postFlow, h1, h2, hw, hc]
          refine ⟨?_, ?_, fun _ => ?_, herase⟩
          · rw [List.countP_cons, List.countP_cons, List.countP_cons,
              countP_sinkWrites isRemove hrem]
            simp [List.countP_cons, isRemove]
          · simp only [fireAfterRemove, fireAfterRemove_sinkWrites]
            simp [fireAfterRemove, isFire]
          · rw [List.countP_cons, List.countP_cons, List.countP_cons,
              countP_sinkWrites isFire hfire]
            simp [List.countP_cons, isFire]

theorem c3_removal_once_witness :
    ((postFlow envOk []).1.countP isRemove) = 1 ∧
    fireAfterRemove (postFlow envOk []).1 = false ∧
    (envOk.selectWinner = .paired → (postFlow envOk []).1.countP isFire = 1) ∧
    (postFlow envOk []).2 = [] :=
  c3_removal_once envOk [] zeroBytes rfl rfl

/-- C4: after pairing, a copy error makes the upload flow write the
error text as its only phase-3 response write instead of the success
message, and a successful copy makes it write the success message; in
both cases the completion signal fires exactly once (main.go lines
171-185). -/
theorem c4_copy_outcomes (env : PostEnv) (reg : Registry) (bs : List Nat)
    (h1 : env.rngBytes = some bs)
    (h2 : lookupReg (fileIDOf bs) reg = none)
    (h3 : env.selectWinner = .paired) :
    (∀ k msg, effCopy env = .err k msg →
      respWritesOf (postFlow env reg).1 =
        [phase1Msg env (fileIDOf bs), "Client connected.\n", msg] ∧
      (postFlow env reg).1.countP isFire = 1) ∧
    (effCopy env = .ok →
      respWritesOf (postFlow env reg).1 =
        [phase1Msg env (fileIDOf bs), "Client connected.\n",
         successMsg env.fileName] ∧
      (postFlow env reg).1.countP isFire = 1) := by
  have hfire : ∀ b, isFire (Event.sinkWrite b) = false := fun _ => rfl
  constructor
  · intro k msg hc
    simp only [postFlow, h1, h2, h3, hc]
    constructor
    · simp only [respWritesOf, respWritesOf_sinkWrites]
      simp [respWritesOf, phase2Msg]
    · rw [List.countP_cons, List.countP_cons, List.countP_cons,
        countP_sinkWrites isFire hfire]
      simp [List.countP_cons, isFire]
  · intro hc
    simp only [postFlow, h1, h2, h3, hc]
    constructor
    · simp only [respWritesOf, respWritesOf_sinkWrites]
      simp [respWritesOf, phase2Msg]
    · rw [List.countP_cons, List.countP_cons, List.countP_cons,
        countP_sinkWrites isFire hfire]
      simp [List.countP_cons, isFire]

/-- An upload environment whose copy fails after 2 bytes. -/
def envErr : PostEnv := { envOk with copyOutcome := .err 2 "broken pipe" }

theorem c4_copy_outcomes_witness :
    (respWritesOf (postFlow envErr []).1 =
        [phase1Msg envErr (fileIDOf zeroBytes), "Client connected.\n",
         "broken pipe"] ∧
      (postFlow envErr []).1.countP isFire = 1) ∧
    (respWritesOf (postFlow envOk []).1 =
        [phase1Msg envOk (fileIDOf zeroBytes), "Client connected.\n",
         successMsg envOk.fileName] ∧
      (postFlow envOk []).1.countP isFire = 1) :=
  ⟨(c4_copy_outcomes envErr [] zeroBytes rfl rfl rfl).1 2 "broken pipe"
      (by decide),
   (c4_copy_outcomes envOk [] zeroBytes rfl rfl rfl).2 (by decide)⟩

/-- The phase-3 writes determined by the select winner and the copy
outcome: nothing unless pairing happened, else the success message or
the copy error text. -/
def phase3Writes (env : PostEnv) : List String :=
  match env.selectWinner with
  | .disconnected => []
  | .timedOut => []
  | .paired =>
      match effCopy env with
      | .ok => [successMsg env.fileName]
      | .err _ msg => [msg]

/-- C5: after phase 1 the upload flow writes exactly one of the three
phase-2 messages, the one of the select case that won (main.go lines
155-169), and a phase-3 message is written only when phase 2 was
"Client connected.". -/
theorem c5_three_phases (env : PostEnv) (reg : Registry) (bs : List Nat)
    (h1 : env.rngBytes = some bs)
    (h2 : lookupReg (fileIDOf bs) reg = none) :
    respWritesOf (postFlow env reg).1 =
      phase1Msg env (fileIDOf bs) :: phase2Msg env.selectWinner ::
        phase3Writes env ∧
    (phase2Msg env.selectWinner = "Client connected.\n" ∨
     phase2Msg env.selectWinner = "Request disconnected.\n" ∨
     phase2Msg env.selectWinner = "Timed out. No client connected in 120 seconds.\n") ∧
    (phase3Writes env ≠ [] →
      phase2Msg env.selectWinner = "Client connected.\n") := by
  cases hw : env.selectWinner with
  | disconnected =>
      simp only [postFlow, h1, h2, hw]
      exact ⟨by simp [respWritesOf, phase3Writes, hw, phase2Msg],
        by simp [phase2Msg], by simp [phase3Writes, hw]⟩
  | timedOut =>
      simp only [postFlow, h1, h2, hw]
      exact ⟨by simp [respWritesOf, phase3Writes, hw, phase2Msg],
        by simp [phase2Msg], by simp [phase3Writes, hw]⟩
  | paired =>
      refine ⟨?_, by simp [phase2Msg], fun _ => by simp [phase2Msg]⟩
      cases hc : effCopy env with
      | ok =>
          simp only [postFlow, h1, h2, hw, hc]
          simp only [respWritesOf, respWritesOf_sinkWrites]
          simp [respWritesOf, phase3Writes, hw, hc, phase2Msg]
      | err k msg =>
          simp only [postFlow, h1, h2, hw, hc]
          simp only [respWritesOf, respWritesOf_sinkWrites]
          simp [respWritesOf, phase3Writes, hw, hc, phase2Msg]

theorem c5_three_phases_witness :
    respWritesOf (postFlow envOk []).1 =
      phase1Msg envOk (fileIDOf zeroBytes) :: phase2Msg envOk.selectWinner ::
        phase3Writes envOk ∧
    (phase2Msg envOk.selectWinner = "Client connected.\n" ∨
     phase2Msg envOk.selectWinner = "Request disconnected.\n" ∨
     phase2Msg envOk.selectWinner = "Timed out. No client connected in 120 seconds.\n") ∧
    (phase3Writes envOk ≠ [] →
      phase2Msg envOk.selectWinner = "Client connected.\n") :=
  c5_three_phases envOk [] zeroBytes rfl rfl

/-- C2: the receiving check of main.go line 193 runs with no lock held,
so the check and the locked claim block are separate atomic steps.
Under the serialized schedule one downloader claims and the other is
rejected, but under the alternating schedule both downloaders pass the
check and both claim, the second overwriting the stored sink: the
claimed exactly-one-winner property fails on the code. -/
theorem c2_claim_race :
    ((raceRun [false, false, false, true, true, true] raceInit).pcA = 3 ∧
     (raceRun [false, false, false, true, true, true] raceInit).pcB = 4) ∧
    ((raceRun [false, true, false, true, false, true] raceInit).pcA = 3 ∧
     (raceRun [false, true, false, true, false, true] raceInit).pcB = 3 ∧
     (raceRun [false, true, false, true, false, true] raceInit).sinkOwner = 2) := by
  decide

/-- C9 counterexample: the wrapper constructed at main.go line 150
leaves size zero-valued while noWritten is -1, so Written() is already
true before any Write. -/
theorem c9_written_after_construction : written mkResponseLogWriter = true := by
  decide

lemma written_of_nonneg (w : ResponseLogWriter) (h : 0 ≤ w.size) :
    written w = true := by
  have : w.size ≠ noWritten := by
    simp only [noWritten]
    omega
  simpa [written] using this

lemma rlwWrite_size_of_nonneg (w : ResponseLogWriter) (data : List Nat)
    (h : 0 ≤ w.size) :
    (rlwWrite w data).size = w.size + data.length := by
  simp [rlwWrite, writeHeaderNow, written_of_nonneg w h]

/-- C9 amended: Written is already true at construction and stays true
across every sequence of Writes, and Size returns the cumulative number
of bytes written across all Write calls. -/
theorem c9_written_size (chunks : List (List Nat)) :
    written (chunks.foldl rlwWrite mkResponseLogWriter) = true ∧
    rlwSize (chunks.foldl rlwWrite mkResponseLogWriter) =
      ((chunks.map fun c => (c.length : Int)).sum) := by
  have key : ∀ (cs : List (List Nat)) (w : ResponseLogWriter), 0 ≤ w.size →
      (cs.foldl rlwWrite w).size =
        w.size + ((cs.map fun c => (c.length : Int)).sum) := by
    intro cs
    induction cs with
    | nil => intro w _; simp
    | cons c cs ih =>
        intro w hw
        rw [List.foldl_cons]
        have h1 := rlwWrite_size_of_nonneg w c hw
        have h2 : 0 ≤ (rlwWrite w c).size := by rw [h1]; positivity
        rw [ih _ h2, h1]
        simp
        ring
  have h0 : (0 : Int) ≤ mkResponseLogWriter.size := by
    simp [mkResponseLogWriter]
  have hs := key chunks mkResponseLogWriter h0
  have hsum : (0 : Int) ≤ (chunks.map fun c => (c.length : Int)).sum := by
    apply List.sum_nonneg
    intro x hx
    obtain ⟨c, _, rfl⟩ := List.mem_map.mp hx
    positivity
  constructor
  · apply written_of_nonneg
    rw [hs]
    simp [mkResponseLogWriter]
    omega
  · rw [rlwSize, hs]
    simp [mkResponseLogWriter]

end Streamer
